import Mathlib

/-!
# Verification of the vital-signs live-prediction pipeline

Shallow embedding of `src/vital_signs/predict_live.py`:

* `PyJson` models the Python values produced by `json.load` (JSON numbers are
  modelled as rationals; the claims under study never do float arithmetic,
  they only copy, compare and route values).
* `processEntry` / `runEntries` model the per-entry loop of
  `process_json_file` (lines 66-101): frame extraction, feature-dictionary
  construction, schema fill, column selection `df[model.feature_names_in_]`,
  `model.predict`, and the `gui_queue.put((predictions[0], breath_rate_value))`
  enqueue.
* `attemptOnce` / `processLoopAux` / `processLoop` model the retry loop of
  `process_json_file` (lines 51-116): per-attempt empty-file check, parse,
  entry loop, and the exception handlers
  `except (JSONDecodeError, ValueError)` (retry) and `except Exception`
  (abort file).  `FileState` gives the state the watched file presents at a
  given attempt, so a file being written concurrently is an `env` that
  changes between attempts.
* `onCreated` / `dispatchLog` model `NewFileHandler.on_created`
  (lines 121-135); the handler's lock serializes calls, so the model folds a
  sequence of events through the mutable `processed_files` set.

Exceptions are modelled by class, exactly as the handlers discriminate them:
`JSONDecodeError`, `ValueError`, and everything else (`otherError`, covering
`OSError`/`PermissionError`, `AttributeError`/`TypeError` from unexpected
shapes, and any other class an adapter may raise).
-/

/-- Python values as produced by `json.load`, restricted to the shapes the
pipeline touches: `none` is Python `None` (JSON `null`), numbers, lists and
dicts.  Dicts are association lists; Python dict lookups take the first
match and insertion appends at the end, which agrees with `List.lookup` as
long as keys are never shadowed (the pipeline never shadows a key). -/
inductive PyJson where
  | none
  | num (x : Rat)
  | arr (xs : List PyJson)
  | obj (fields : List (String × PyJson))

/-- Python truthiness for the values above: `None`, `0`, `[]` and `{}` are
falsy (this is the `if vitals:` test on line 69). -/
def truthy : PyJson → Bool
  | .none => false
  | .num x => if x = 0 then false else true
  | .arr [] => false
  | .arr (_ :: _) => true
  | .obj [] => false
  | .obj (_ :: _) => true

/-- Exception classes, at the granularity the handlers of
`process_json_file` distinguish: `except (JSONDecodeError, ValueError)`
retries, `except Exception` aborts the file. -/
inductive PyExc where
  | jsonDecodeError
  | valueError
  | otherError
  deriving DecidableEq

/-- Whether the class is caught by the retrying handler
`except (JSONDecodeError, ValueError)` (line 107). -/
def PyExc.retryable : PyExc → Bool
  | .jsonDecodeError => true
  | .valueError => true
  | .otherError => false

/-- One enqueued result: `gui_queue.put((predictions[0], breath_rate_value))`
on line 101 puts a pair of the model's scalar prediction and the frame's raw
`breathRate` value. -/
abbrev QItem := Rat × PyJson

/-- The external inference adapter: `model.predict` on the schema-ordered
vector, which may raise an exception of any class. -/
abbrev Predict := List (String × PyJson) → Except PyExc Rat

/-- `vitals.get(k, [])` followed by `enumerate(...)`: the waveform must be a
Python list to be iterated; a missing key defaults to `[]`.  A non-list
value (including `None` from a JSON `null`) makes `enumerate`/iteration
raise, an exception outside the retryable classes. -/
def waveformOf (vfs : List (String × PyJson)) (k : String) : Except PyExc (List PyJson) :=
  match (List.lookup k vfs).getD (.arr []) with
  | .arr xs => .ok xs
  | _ => .error .otherError

/-- `for i, value in enumerate(w): d[pre + str(i)] = value` — the flattening
of a waveform into indexed feature keys (lines 80-83). -/
def enumKeys (pre : String) (xs : List PyJson) : List (String × PyJson) :=
  xs.enum.map (fun p => (pre ++ toString p.1, p.2))

/-- Lines 74-83: the frame-derived feature dictionary.  `heartRate` and
`breathRate` are always inserted first, holding `vitals.get(...)` — which is
Python `None` when the key is absent or its value is JSON `null`.  Then the
two waveforms are flattened. -/
def baseDict (vfs : List (String × PyJson)) : Except PyExc (List (String × PyJson)) :=
  match waveformOf vfs "heartWaveform", waveformOf vfs "breathWaveform" with
  | .error e, _ => .error e
  | .ok _, .error e => .error e
  | .ok hw, .ok bw =>
      .ok ([("heartRate", (List.lookup "heartRate" vfs).getD .none),
            ("breathRate", (List.lookup "breathRate" vfs).getD .none)]
           ++ enumKeys "heartWaveform_" hw ++ enumKeys "breathWaveform_" bw)

/-- Lines 86-88: `for col in model.feature_names_in_: if col not in
vitals_dict: vitals_dict[col] = 0.0`.  Python dict insertion appends, so a
missing key is appended at the end with value `0.0`. -/
def fillMissing (d : List (String × PyJson)) (schema : List String) : List (String × PyJson) :=
  schema.foldl
    (fun d col => if (List.lookup col d).isSome then d else d ++ [(col, .num 0)]) d

/-- Line 92: `df = df[model.feature_names_in_]` — column selection in schema
order; a schema column absent from the dictionary would raise `KeyError`
(not a retryable class). -/
def selectCols (d : List (String × PyJson)) : List String → Except PyExc (List (String × PyJson))
  | [] => .ok []
  | c :: rest =>
    match List.lookup c d with
    | Option.none => .error .otherError
    | some v =>
      match selectCols d rest with
      | .error e => .error e
      | .ok vec => .ok ((c, v) :: vec)

/-- The vector handed to `model.predict` for one frame: frame dictionary,
schema fill, then schema-ordered column selection (lines 74-92). -/
def frameVector (schema : List String) (vfs : List (String × PyJson)) :
    Except PyExc (List (String × PyJson)) :=
  match baseDict vfs with
  | .error e => .error e
  | .ok d => selectCols (fillMissing d schema) schema

/-- Lines 74-101 for one truthy vitals dict: build the vector, run
`model.predict`, and form the enqueued pair
`(predictions[0], vitals.get("breathRate", 0.0))`. -/
def processVitals (schema : List String) (predict : Predict)
    (vfs : List (String × PyJson)) : Except PyExc QItem :=
  match frameVector schema vfs with
  | .error e => .error e
  | .ok vec =>
    match predict vec with
    | .error e => .error e
    | .ok y => .ok (y, (List.lookup "breathRate" vfs).getD (.num 0))

/-- Lines 66-101 for one entry of the `data` sequence:
`frame_data = entry.get("frameData", {})`, `vitals = frame_data.get("vitals",
None)`, the `if vitals:` truthiness gate, then frame processing.  `.ok
Option.none` is a skipped entry (falsy vitals: absent, `null`, or an empty
dict); `.get` on a non-dict raises `AttributeError` (not retryable). -/
def processEntry (schema : List String) (predict : Predict) (entry : PyJson) :
    Except PyExc (Option QItem) :=
  match entry with
  | .obj efs =>
    match (List.lookup "frameData" efs).getD (.obj []) with
    | .obj ffs =>
      match (List.lookup "vitals" ffs).getD .none with
      | .obj vfs =>
        if truthy (.obj vfs) then
          match processVitals schema predict vfs with
          | .error e => .error e
          | .ok item => .ok (some item)
        else .ok Option.none
      | v =>
        if truthy v then .error .otherError else .ok Option.none
    | _ => .error .otherError
  | _ => .error .otherError

/-- The `for entry in data.get("data", [])` loop (line 66): entries are
processed in order, each successful frame's pair is enqueued immediately;
the first exception stops the loop, keeping the pairs already enqueued. -/
def runEntries (schema : List String) (predict : Predict) :
    List PyJson → List QItem × Option PyExc
  | [] => ([], Option.none)
  | e :: es =>
    match processEntry schema predict e with
    | .error exc => ([], some exc)
    | .ok Option.none => runEntries schema predict es
    | .ok (some item) =>
      ((item :: (runEntries schema predict es).1), (runEntries schema predict es).2)

/-- `data.get("data", [])` then iteration (line 66): the top level must be a
dict and the `data` value, when present, must be a list to iterate;
otherwise `.get`/iteration raises outside the retryable classes. -/
def getDataEntries (j : PyJson) : Except PyExc (List PyJson) :=
  match j with
  | .obj fs =>
    match (List.lookup "data" fs).getD (.arr []) with
    | .arr xs => .ok xs
    | _ => .error .otherError
  | _ => .error .otherError

/-- What the watched file presents to one attempt: size zero (line 57 raises
`ValueError("File is empty.")`), an I/O fault at `getsize`/`open`
(`OSError`, not retryable), unparsable bytes (`json.load` raises
`JSONDecodeError`), or bytes parsing to a `PyJson` value. -/
inductive FileState where
  | empty
  | ioError
  | malformed
  | content (j : PyJson)

/-- Outcome of a single attempt of the retry loop body: the pairs enqueued
during the attempt, the exception (if any) reaching the handlers, and
whether `json.load` ran on this attempt. -/
structure AttemptResult where
  items : List QItem
  exc : Option PyExc
  parsed : Bool

/-- One iteration of the retry loop body (lines 53-104), on the file state
this attempt observes. -/
def attemptOnce (schema : List String) (predict : Predict) : FileState → AttemptResult
  | .empty => ⟨[], some .valueError, false⟩
  | .ioError => ⟨[], some .otherError, false⟩
  | .malformed => ⟨[], some .jsonDecodeError, true⟩
  | .content j =>
    match getDataEntries j with
    | .error e => ⟨[], some e, true⟩
    | .ok es =>
      ⟨(runEntries schema predict es).1, (runEntries schema predict es).2, true⟩

/-- Cumulative observable outcome of `process_json_file`: everything put on
`gui_queue`, the number of loop iterations started (read attempts), and the
number of attempts on which `json.load` ran. -/
structure RunResult where
  queue : List QItem
  attempts : Nat
  parses : Nat

/-- Account one executed attempt into the cumulative outcome. -/
def accStep (acc : RunResult) (r : AttemptResult) : RunResult :=
  ⟨acc.queue ++ r.items, acc.attempts + 1, acc.parses + (if r.parsed then 1 else 0)⟩

/-- The retry loop `for attempt in range(1, retries + 1)` (line 51), with the
two handlers: a retryable class (`JSONDecodeError`, `ValueError`) continues
to the next attempt while budget remains; success or any other class leaves
the loop (`break` on lines 105 and 116). -/
def processLoopAux (schema : List String) (predict : Predict)
    (env : Nat → FileState) : Nat → Nat → RunResult → RunResult
  | _, 0, acc => acc
  | a, fuel + 1, acc =>
    match (attemptOnce schema predict (env a)).exc with
    | Option.none => accStep acc (attemptOnce schema predict (env a))
    | some e =>
      if e.retryable then
        processLoopAux schema predict env (a + 1) fuel
          (accStep acc (attemptOnce schema predict (env a)))
      else accStep acc (attemptOnce schema predict (env a))

/-- `process_json_file(path, retries, delay)`: attempts are numbered from 1,
`env t` is the file state the t-th attempt observes.  The function is total:
every exception is consumed by one of the two handlers, none propagates. -/
def processLoop (schema : List String) (predict : Predict)
    (env : Nat → FileState) (retries : Nat) : RunResult :=
  processLoopAux schema predict env 1 retries ⟨[], 0, 0⟩

/-- Attempt `s` raises an exception of a retryable class. -/
def transientAt (schema : List String) (predict : Predict)
    (env : Nat → FileState) (s : Nat) : Prop :=
  ∃ e, (attemptOnce schema predict (env s)).exc = some e ∧ e.retryable = true

/-- A watchdog file-creation event as seen by `NewFileHandler.on_created`:
the source path and whether the event is for a directory. -/
structure FsEvent where
  src_path : String
  is_directory : Bool

/-- `NewFileHandler.on_created` (lines 127-135), under the handler's lock:
filter to `.json` files, then test-and-set the path in `processed_files`.
Returns the updated set and whether a File Processor thread was started. -/
def onCreated (claimed : List String) (e : FsEvent) : List String × Bool :=
  if !e.is_directory && e.src_path.endsWith ".json" then
    if e.src_path ∈ claimed then (claimed, false)
    else (e.src_path :: claimed, true)
  else (claimed, false)

/-- The paths dispatched to File Processors over a serialized sequence of
events (the lock serializes `on_created` calls), starting from set
`claimed`. -/
def dispatchLog (claimed : List String) : List FsEvent → List String
  | [] => []
  | e :: es =>
    if (onCreated claimed e).2 then e.src_path :: dispatchLog (onCreated claimed e).1 es
    else dispatchLog (onCreated claimed e).1 es

/-- The pairs one entry contributes to the queue when its processing does
not raise: one pair for a processed frame, none for a skipped entry. -/
def entryItems (schema : List String) (predict : Predict) (a : PyJson) : List QItem :=
  match processEntry schema predict a with
  | .ok (some it) => [it]
  | _ => []

/-- The pairs a list of entries contributes when none of them raises. -/
def collectItems (schema : List String) (predict : Predict) : List PyJson → List QItem
  | [] => []
  | a :: as => entryItems schema predict a ++ collectItems schema predict as

/-- A concrete entry whose vitals dict holds only a heart rate `x`. -/
def exEntryHr (x : Rat) : PyJson :=
  .obj [("frameData", .obj [("vitals", .obj [("heartRate", .num x)])])]

/-- A concrete adapter that raises an unexpected (non-retryable) exception
exactly on the vector of the frame with heart rate 70, and predicts 5
elsewhere. -/
def exPredictFail : Predict := fun vec =>
  match vec with
  | [("heartRate", .num x)] => if x = 70 then .error .otherError else .ok 5
  | _ => .ok 5

/-- A concrete adapter that always raises `ValueError`. -/
def exPredictVE : Predict := fun _ => .error .valueError

/-- A concrete adapter that always predicts 5. -/
def exPredictConst : Predict := fun _ => .ok 5

/-- A concrete parsed file with two frames: heart rates 70 and 80. -/
def exFileTwo : PyJson := .obj [("data", .arr [exEntryHr 70, exEntryHr 80])]

/-- A concrete parsed file with the single frame of heart rate 70. -/
def exFileOne : PyJson := .obj [("data", .arr [exEntryHr 70])]

/-! ## Association-list and fill lemmas -/

theorem lookup_append_or {β : Type} (k : String) (l₁ l₂ : List (String × β)) :
    List.lookup k (l₁ ++ l₂) = (List.lookup k l₁).or (List.lookup k l₂) := by
  induction l₁ with
  | nil => simp
  | cons hd tl ih =>
    obtain ⟨k', v⟩ := hd
    rw [List.cons_append, List.lookup_cons, List.lookup_cons]
    cases h : (k == k') <;> simp [ih]

theorem fillMissing_nil (d : List (String × PyJson)) : fillMissing d [] = d := rfl

theorem fillMissing_cons (d : List (String × PyJson)) (c : String) (rest : List String) :
    fillMissing d (c :: rest) =
      fillMissing (if (List.lookup c d).isSome then d else d ++ [(c, .num 0)]) rest := by
  simp only [fillMissing, List.foldl_cons]

theorem fill_lookup_of_isSome (col : String) (s : List String) :
    ∀ d : List (String × PyJson), (List.lookup col d).isSome →
      List.lookup col (fillMissing d s) = List.lookup col d := by
  induction s with
  | nil => intro d _; rfl
  | cons c rest ih =>
    intro d h
    rw [fillMissing_cons]
    by_cases hc : (List.lookup c d).isSome
    · rw [if_pos hc]; exact ih d h
    · rw [if_neg hc]
      obtain ⟨v, hv⟩ := Option.isSome_iff_exists.mp h
      have hd' : List.lookup col (d ++ [(c, PyJson.num 0)]) = List.lookup col d := by
        rw [lookup_append_or, hv]; rfl
      rw [ih _ (by rw [hd']; exact h), hd']

theorem fill_lookup_of_mem (col : String) (s : List String) :
    ∀ d : List (String × PyJson), col ∈ s →
      List.lookup col (fillMissing d s) = some ((List.lookup col d).getD (.num 0)) := by
  induction s with
  | nil => intro d h; cases h
  | cons c rest ih =>
    intro d hmem
    rw [fillMissing_cons]
    by_cases hcol : col = c
    · subst hcol
      have hd' : List.lookup col (if (List.lookup col d).isSome then d
            else d ++ [(col, PyJson.num 0)]) =
          some ((List.lookup col d).getD (PyJson.num 0)) := by
        by_cases hc : (List.lookup col d).isSome
        · rw [if_pos hc]
          obtain ⟨v, hv⟩ := Option.isSome_iff_exists.mp hc
          rw [hv]; rfl
        · rw [if_neg hc]
          rw [Option.not_isSome_iff_eq_none] at hc
          rw [lookup_append_or, hc]
          simp [List.lookup_cons]
      rw [fill_lookup_of_isSome _ _ _ (by rw [hd']; rfl), hd']
    · have hrest : col ∈ rest := by
        rcases List.mem_cons.mp hmem with h | h
        · exact absurd h hcol
        · exact h
      have hstep : List.lookup col (if (List.lookup c d).isSome then d
            else d ++ [(c, PyJson.num 0)]) = List.lookup col d := by
        by_cases hc : (List.lookup c d).isSome
        · rw [if_pos hc]
        · rw [if_neg hc, lookup_append_or]
          have h1 : List.lookup col [(c, PyJson.num 0)] = Option.none := by
            rw [List.lookup_cons]
            simp [beq_false_of_ne hcol]
          rw [h1, Option.or_none]
      rw [ih _ hrest, hstep]

theorem selectCols_of_isSome (s : List String) (d : List (String × PyJson))
    (h : ∀ col ∈ s, (List.lookup col d).isSome) :
    selectCols d s = .ok (s.map fun col => (col, (List.lookup col d).getD (PyJson.num 0))) := by
  induction s with
  | nil => rfl
  | cons c rest ih =>
    obtain ⟨v, hv⟩ := Option.isSome_iff_exists.mp (h c (List.mem_cons_self c rest))
    have hrec := ih (fun col hcol => h col (List.mem_cons_of_mem _ hcol))
    simp only [selectCols, hv, hrec, List.map_cons]
    rfl

/-! ## Retry-loop lemmas -/

theorem processLoopAux_zero (schema : List String) (predict : Predict)
    (env : Nat → FileState) (a : Nat) (acc : RunResult) :
    processLoopAux schema predict env a 0 acc = acc := rfl

theorem processLoopAux_succ (schema : List String) (predict : Predict)
    (env : Nat → FileState) (a fuel : Nat) (acc : RunResult) :
    processLoopAux schema predict env a (fuel + 1) acc =
      match (attemptOnce schema predict (env a)).exc with
      | Option.none => accStep acc (attemptOnce schema predict (env a))
      | some e =>
        if e.retryable then
          processLoopAux schema predict env (a + 1) fuel
            (accStep acc (attemptOnce schema predict (env a)))
        else accStep acc (attemptOnce schema predict (env a)) := rfl

theorem accStep_attempts (acc : RunResult) (r : AttemptResult) :
    (accStep acc r).attempts = acc.attempts + 1 := rfl

theorem processLoopAux_attempts_mono (schema : List String) (predict : Predict)
    (env : Nat → FileState) :
    ∀ (fuel a : Nat) (acc : RunResult),
      acc.attempts ≤ (processLoopAux schema predict env a fuel acc).attempts := by
  intro fuel
  induction fuel with
  | zero => intro a acc; exact Nat.le_refl _
  | succ f ih =>
    intro a acc
    rw [processLoopAux_succ]
    cases hx : (attemptOnce schema predict (env a)).exc with
    | none => rw [accStep_attempts]; omega
    | some e =>
      cases hr : e.retryable with
      | false => simp only [hr, if_false, Bool.false_eq_true, accStep_attempts]; omega
      | true =>
        simp only [hr, if_true]
        have h1 := ih (a + 1) (accStep acc (attemptOnce schema predict (env a)))
        rw [accStep_attempts] at h1
        omega

theorem processLoopAux_stops (schema : List String) (predict : Predict)
    (env : Nat → FileState) :
    ∀ (k a fuel : Nat) (acc : RunResult) (e : PyExc),
      (∀ s, a ≤ s → s < a + k → transientAt schema predict env s) →
      (attemptOnce schema predict (env (a + k))).exc = some e →
      e.retryable = false →
      k + 1 ≤ fuel →
      (processLoopAux schema predict env a fuel acc).attempts = acc.attempts + (k + 1) := by
  intro k
  induction k with
  | zero =>
    intro a fuel acc e _ hexc hret hfuel
    obtain ⟨f, rfl⟩ : ∃ f, fuel = f + 1 := ⟨fuel - 1, by omega⟩
    rw [Nat.add_zero] at hexc
    rw [processLoopAux_succ, hexc]
    simp only [hret, if_false, Bool.false_eq_true, accStep_attempts]
  | succ k ih =>
    intro a fuel acc e htr hexc hret hfuel
    obtain ⟨f, rfl⟩ : ∃ f, fuel = f + 1 := ⟨fuel - 1, by omega⟩
    obtain ⟨e', he', her'⟩ := htr a (Nat.le_refl a) (by omega)
    rw [processLoopAux_succ, he']
    simp only [her', if_true]
    rw [ih (a + 1) f (accStep acc (attemptOnce schema predict (env a))) e
      (fun s hs1 hs2 => htr s (by omega) (by omega))
      (by have h : a + 1 + k = a + (k + 1) := by omega
          rw [h]; exact hexc)
      hret (by omega)]
    rw [accStep_attempts]
    omega

theorem processLoopAux_runs (schema : List String) (predict : Predict)
    (env : Nat → FileState) :
    ∀ (k a fuel : Nat) (acc : RunResult),
      (∀ s, a ≤ s → s < a + k → transientAt schema predict env s) →
      k + 1 ≤ fuel →
      acc.attempts + (k + 1) ≤ (processLoopAux schema predict env a fuel acc).attempts := by
  intro k
  induction k with
  | zero =>
    intro a fuel acc _ hfuel
    obtain ⟨f, rfl⟩ : ∃ f, fuel = f + 1 := ⟨fuel - 1, by omega⟩
    rw [processLoopAux_succ]
    cases hx : (attemptOnce schema predict (env a)).exc with
    | none => rw [accStep_attempts]
    | some e =>
      cases hr : e.retryable with
      | false => simp only [hr, if_false, Bool.false_eq_true, accStep_attempts]; omega
      | true =>
        simp only [hr, if_true]
        have h1 := processLoopAux_attempts_mono schema predict env f (a + 1)
          (accStep acc (attemptOnce schema predict (env a)))
        rw [accStep_attempts] at h1
        omega
  | succ k ih =>
    intro a fuel acc htr hfuel
    obtain ⟨f, rfl⟩ : ∃ f, fuel = f + 1 := ⟨fuel - 1, by omega⟩
    obtain ⟨e', he', her'⟩ := htr a (Nat.le_refl a) (by omega)
    rw [processLoopAux_succ, he']
    simp only [her', if_true]
    have h1 := ih (a + 1) f (accStep acc (attemptOnce schema predict (env a)))
      (fun s hs1 hs2 => htr s (by omega) (by omega)) (by omega)
    rw [accStep_attempts] at h1
    omega

theorem processLoopAux_malformed (schema : List String) (predict : Predict) :
    ∀ (fuel a : Nat) (acc : RunResult),
      processLoopAux schema predict (fun _ => FileState.malformed) a fuel acc =
        ⟨acc.queue, acc.attempts + fuel, acc.parses + fuel⟩ := by
  intro fuel
  induction fuel with
  | zero => intro a acc; rfl
  | succ f ih =>
    intro a acc
    rw [processLoopAux_succ]
    show processLoopAux schema predict _ (a + 1) f (accStep acc ⟨[], some .jsonDecodeError, true⟩) = _
    rw [ih]
    show RunResult.mk (acc.queue ++ []) (acc.attempts + 1 + f) (acc.parses + 1 + f) = _
    rw [List.append_nil]
    have h1 : acc.attempts + 1 + f = acc.attempts + (f + 1) := by omega
    have h2 : acc.parses + 1 + f = acc.parses + (f + 1) := by omega
    rw [h1, h2]

/-! ## Entry-loop lemmas -/

theorem runEntries_skip (schema : List String) (predict : Predict)
    (e : PyJson) (he : processEntry schema predict e = .ok Option.none) :
    ∀ (xs ys : List PyJson),
      runEntries schema predict (xs ++ e :: ys) = runEntries schema predict (xs ++ ys) := by
  intro xs
  induction xs with
  | nil =>
    intro ys
    show runEntries schema predict (e :: ys) = _
    simp only [runEntries, he]
    rfl
  | cons x xs ih =>
    intro ys
    rw [List.cons_append, List.cons_append]
    cases hx : processEntry schema predict x with
    | error exc => simp only [runEntries, hx]
    | ok r =>
      cases r with
      | none => simp only [runEntries, hx]; exact ih ys
      | some it => simp only [runEntries, hx, ih ys]

theorem runEntries_first_raise (schema : List String) (predict : Predict)
    (e : PyJson) (exc : PyExc) (he : processEntry schema predict e = .error exc) :
    ∀ (xs ys : List PyJson),
      (∀ a ∈ xs, ∃ r, processEntry schema predict a = .ok r) →
      runEntries schema predict (xs ++ e :: ys) =
        (collectItems schema predict xs, some exc) := by
  intro xs
  induction xs with
  | nil =>
    intro ys _
    show runEntries schema predict (e :: ys) = _
    simp only [runEntries, he, collectItems]
  | cons x xs ih =>
    intro ys hxs
    obtain ⟨r, hr⟩ := hxs x (List.mem_cons_self x xs)
    have hrest := fun a ha => hxs a (List.mem_cons_of_mem _ ha)
    rw [List.cons_append]
    cases r with
    | none =>
      simp only [runEntries, hr, collectItems, entryItems]
      rw [ih ys hrest]
      rfl
    | some it =>
      simp only [runEntries, hr, collectItems, entryItems]
      rw [ih ys hrest]
      rfl

/-! ## Dedup-handler lemmas -/

theorem onCreated_cases (claimed : List String) (e : FsEvent) :
    onCreated claimed e = (claimed, false) ∨
    (onCreated claimed e = (e.src_path :: claimed, true) ∧ e.src_path ∉ claimed) := by
  unfold onCreated
  by_cases h1 : (!e.is_directory && e.src_path.endsWith ".json") = true
  · rw [if_pos h1]
    by_cases h2 : e.src_path ∈ claimed
    · left; rw [if_pos h2]
    · right; exact ⟨by rw [if_neg h2], h2⟩
  · left; rw [if_neg h1]

theorem dispatchLog_count_le (p : String) :
    ∀ (evs : List FsEvent) (claimed : List String),
      List.count p (dispatchLog claimed evs) ≤ (if p ∈ claimed then 0 else 1) := by
  intro evs
  induction evs with
  | nil =>
    intro claimed
    show List.count p [] ≤ _
    rw [List.count_nil]
    split <;> omega
  | cons e es ih =>
    intro claimed
    rcases onCreated_cases claimed e with h | ⟨h, hmem⟩
    · show List.count p (if (onCreated claimed e).2 then _ else _) ≤ _
      rw [h]
      exact ih claimed
    · show List.count p (if (onCreated claimed e).2 then _ else _) ≤ _
      rw [h]
      show List.count p (e.src_path :: dispatchLog (e.src_path :: claimed) es) ≤ _
      rw [List.count_cons]
      by_cases hp : p = e.src_path
      · subst hp
        have h1 := ih (e.src_path :: claimed)
        rw [if_pos (List.mem_cons_self e.src_path claimed)] at h1
        rw [if_neg hmem]
        simp only [beq_self_eq_true, if_true]
        omega
      · have h1 := ih (e.src_path :: claimed)
        have h2 : (p ∈ e.src_path :: claimed) ↔ (p ∈ claimed) := by
          rw [List.mem_cons]
          constructor
          · intro h
            rcases h with h | h
            · exact absurd h hp
            · exact h
          · intro h
            exact Or.inr h
        have h3 : (e.src_path == p) = false := beq_false_of_ne (fun h => hp h.symm)
        rw [h3]
        simp only [if_false, Bool.false_eq_true]
        by_cases hc : p ∈ claimed
        · rw [if_pos (h2.mpr hc)] at h1
          rw [if_pos hc]
          omega
        · rw [if_neg (fun hh => hc (h2.mp hh))] at h1
          rw [if_neg hc]
          omega

/-! ## Shape of the frame-derived dictionary -/

theorem baseDict_shape (vfs d : List (String × PyJson)) (h : baseDict vfs = .ok d) :
    ∃ hw bw, d = [("heartRate", (List.lookup "heartRate" vfs).getD .none),
                  ("breathRate", (List.lookup "breathRate" vfs).getD .none)]
                 ++ enumKeys "heartWaveform_" hw ++ enumKeys "breathWaveform_" bw := by
  unfold baseDict at h
  cases h1 : waveformOf vfs "heartWaveform" with
  | error e =>
    rw [h1] at h
    exact absurd h (by simp)
  | ok hw =>
    cases h2 : waveformOf vfs "breathWaveform" with
    | error e =>
      rw [h1, h2] at h
      exact absurd h (by simp)
    | ok bw =>
      rw [h1, h2] at h
      refine ⟨hw, bw, ?_⟩
      injection h with h'
      exact h'.symm

/-! ## Claim theorems -/

/-- C1: for every file identifier, the dedup test-and-set inside
`on_created` dispatches a File Processor at most once over any sequence of
events, starting from the handler's empty `processed_files` set; every later
event for the same path is dropped. -/
theorem C1_dispatch_at_most_once (evs : List FsEvent) (p : String) :
    List.count p (dispatchLog [] evs) ≤ 1 := by
  have h := dispatchLog_count_le p evs []
  simpa using h

/-- C2: for every frame (any combination of present/absent scalar and
waveform fields, i.e. any vitals dict whose waveform values are lists) and
every schema, the vector handed to `model.predict` has key list exactly the
schema, in schema order — no extra keys, no missing keys.  `processVitals`
applies `predict` to precisely this `frameVector` output. -/
theorem C2_vector_keys (schema : List String) (vfs d : List (String × PyJson))
    (h : baseDict vfs = .ok d) :
    ∃ vec, frameVector schema vfs = .ok vec ∧ vec.map Prod.fst = schema := by
  have hfill : ∀ col ∈ schema, (List.lookup col (fillMissing d schema)).isSome := by
    intro col hcol
    rw [fill_lookup_of_mem col schema d hcol]
    rfl
  refine ⟨schema.map fun col =>
    (col, (List.lookup col (fillMissing d schema)).getD (PyJson.num 0)), ?_, ?_⟩
  · unfold frameVector
    rw [h]
    exact selectCols_of_isSome schema (fillMissing d schema) hfill
  · rw [List.map_map]
    show List.map (fun col => col) schema = schema
    exact List.map_id' schema

/-- Witness for C2 at a concrete frame and schema. -/
theorem C2_vector_keys_witness :
    ∃ vec, frameVector ["x1"] [] = .ok vec ∧ vec.map Prod.fst = ["x1"] :=
  C2_vector_keys ["x1"] [] [("heartRate", PyJson.none), ("breathRate", PyJson.none)] rfl

/-- C5: a permanently malformed file (every attempt sees bytes on which
`json.load` raises a syntax error) yields exactly `retries` read attempts,
all of which parse and fail, an empty queue, and normal termination (the
model's loop is a total function). -/
theorem C5_malformed_exact_retries (schema : List String) (predict : Predict) (retries : Nat) :
    (processLoop schema predict (fun _ => FileState.malformed) retries).queue = [] ∧
    (processLoop schema predict (fun _ => FileState.malformed) retries).attempts = retries ∧
    (processLoop schema predict (fun _ => FileState.malformed) retries).parses = retries := by
  unfold processLoop
  rw [processLoopAux_malformed]
  refine ⟨rfl, ?_, ?_⟩ <;> simp

/-- C8 counterexample: with schema `["heartRate"]` and a frame that has no
`heartRate`, the emitted vector carries Python `None` at `heartRate`, not
`0.0` — the claim demands `0.0` for every schema key not derivable from the
frame, so it fails at this input. -/
theorem C8_zero_default_cex :
    frameVector ["heartRate"] [("breathRate", PyJson.num 12)] =
      .ok [("heartRate", PyJson.none)] ∧ PyJson.none ≠ PyJson.num 0 := by
  refine ⟨rfl, ?_⟩
  intro h
  exact PyJson.noConfusion h

/-- C8 amended: every schema key gets the frame dictionary's value when the
dictionary has the key and `0.0` otherwise; but `heartRate` and `breathRate`
are always in the dictionary, carrying the raw `vitals.get(...)` value —
Python `None`, not `0.0`, when the frame supplies no number.  Waveform keys
beyond the frame's waveform length are genuinely absent and so get `0.0`. -/
theorem C8_defaults_amended (schema : List String) (vfs d : List (String × PyJson))
    (col : String) (h : baseDict vfs = .ok d) (hcol : col ∈ schema) :
    List.lookup "heartRate" d = some ((List.lookup "heartRate" vfs).getD .none) ∧
    List.lookup "breathRate" d = some ((List.lookup "breathRate" vfs).getD .none) ∧
    ∃ vec, frameVector schema vfs = .ok vec ∧
      List.lookup col vec = some ((List.lookup col d).getD (.num 0)) := by
  obtain ⟨hw, bw, hd⟩ := baseDict_shape vfs d h
  refine ⟨by rw [hd]; rfl, by rw [hd]; rfl, ?_⟩
  have hfill : ∀ c ∈ schema, (List.lookup c (fillMissing d schema)).isSome := by
    intro c hc
    rw [fill_lookup_of_mem c schema d hc]
    rfl
  refine ⟨schema.map fun c =>
    (c, (List.lookup c (fillMissing d schema)).getD (PyJson.num 0)), ?_, ?_⟩
  · unfold frameVector
    rw [h]
    exact selectCols_of_isSome schema (fillMissing d schema) hfill
  · rw [List.lookup_graph
      (fun c => (List.lookup c (fillMissing d schema)).getD (PyJson.num 0)) hcol]
    rw [fill_lookup_of_mem col schema d hcol]
    rfl

/-- Witness for C8's amended statement at a concrete frame. -/
theorem C8_defaults_amended_witness :
    List.lookup "heartRate" [("heartRate", PyJson.none), ("breathRate", PyJson.none)] =
      some ((List.lookup "heartRate" ([] : List (String × PyJson))).getD .none) ∧
    List.lookup "breathRate" [("heartRate", PyJson.none), ("breathRate", PyJson.none)] =
      some ((List.lookup "breathRate" ([] : List (String × PyJson))).getD .none) ∧
    ∃ vec, frameVector ["a"] [] = .ok vec ∧
      List.lookup "a" vec =
        some ((List.lookup "a"
          [("heartRate", PyJson.none), ("breathRate", PyJson.none)]).getD (.num 0)) :=
  C8_defaults_amended ["a"] [] [("heartRate", PyJson.none), ("breathRate", PyJson.none)] "a"
    rfl (List.mem_cons_self "a" [])

/-- C9 counterexample: two frames that differ only in their own (reference)
heart rate produce identical enqueued items under a constant-prediction
adapter — so the enqueued item cannot carry the frame's reference heart
rate; the code enqueues only the pair (prediction, breathRate). -/
theorem C9_pair_cex :
    processVitals ["breathRate"] exPredictConst
        [("heartRate", PyJson.num 70), ("breathRate", PyJson.num 12)] =
      processVitals ["breathRate"] exPredictConst
        [("heartRate", PyJson.num 80), ("breathRate", PyJson.num 12)] ∧
    (List.lookup "heartRate"
        [("heartRate", PyJson.num 70), ("breathRate", PyJson.num 12)]).getD .none ≠
      (List.lookup "heartRate"
        [("heartRate", PyJson.num 80), ("breathRate", PyJson.num 12)]).getD .none := by
  refine ⟨rfl, ?_⟩
  intro h
  have h' : PyJson.num 70 = PyJson.num 80 := h
  injection h' with h''
  exact absurd h'' (by norm_num)

/-- C9 amended: every item enqueued for a processed frame carries two
values: the model's prediction and the frame's raw `breathRate` value,
`0.0` when the `breathRate` key is absent; no reference heart rate is part
of the item. -/
theorem C9_pair_amended (schema : List String) (predict : Predict)
    (vfs vec : List (String × PyJson)) (y : Rat)
    (h1 : frameVector schema vfs = .ok vec) (h2 : predict vec = .ok y) :
    processVitals schema predict vfs =
      .ok (y, (List.lookup "breathRate" vfs).getD (.num 0)) := by
  simp only [processVitals, h1, h2]

/-- Witness for C9's amended statement at a concrete frame. -/
theorem C9_pair_amended_witness :
    processVitals ["breathRate"] exPredictConst [("breathRate", PyJson.num 12)] =
      .ok (5, (List.lookup "breathRate" [("breathRate", PyJson.num 12)]).getD (.num 0)) :=
  C9_pair_amended ["breathRate"] exPredictConst [("breathRate", PyJson.num 12)]
    [("breathRate", PyJson.num 12)] 5 rfl rfl

/-- C10: an entry whose vitals record is present but an empty dict (falsy in
Python) is treated exactly like an entry lacking a vitals record: it is
skipped, contributes no prediction and no queue entry, wherever it sits in
the `data` sequence. -/
theorem C10_empty_vitals_like_absent (schema : List String) (predict : Predict)
    (xs ys : List PyJson) (efs ffs : List (String × PyJson))
    (hf : List.lookup "frameData" efs = some (.obj ffs))
    (hv : List.lookup "vitals" ffs = some (.obj [])) :
    processEntry schema predict (.obj efs) = .ok Option.none ∧
    runEntries schema predict (xs ++ PyJson.obj efs :: ys) =
      runEntries schema predict (xs ++ ys) := by
  have hskip : processEntry schema predict (.obj efs) = .ok Option.none := by
    simp only [processEntry, hf, hv, Option.getD_some]
    try rfl
  exact ⟨hskip, runEntries_skip schema predict _ hskip xs ys⟩

/-- Witness for C10 at a concrete entry with an empty vitals dict. -/
theorem C10_empty_vitals_like_absent_witness :
    processEntry ["heartRate"] exPredictConst
        (.obj [("frameData", .obj [("vitals", .obj [])])]) = .ok Option.none ∧
    runEntries ["heartRate"] exPredictConst
        ([] ++ PyJson.obj [("frameData", .obj [("vitals", .obj [])])] :: [exEntryHr 80]) =
      runEntries ["heartRate"] exPredictConst ([] ++ [exEntryHr 80]) :=
  C10_empty_vitals_like_absent ["heartRate"] exPredictConst [] [exEntryHr 80]
    [("frameData", .obj [("vitals", .obj [])])] [("vitals", .obj [])] rfl rfl

/-- C3 counterexample: in a file holding frames with heart rates 70 and 80,
an adapter error on the first frame makes `process_json_file` abandon the
file — the sibling frame 80, which processes fine on its own, is never
enqueued, so the whole run's queue is empty.  The claim demands the sibling
frame's result be enqueued. -/
theorem C3_isolation_cex :
    runEntries ["heartRate"] exPredictFail [exEntryHr 70, exEntryHr 80] =
      ([], some PyExc.otherError) ∧
    processEntry ["heartRate"] exPredictFail (exEntryHr 80) =
      .ok (some ((5 : Rat), PyJson.num 0)) ∧
    (processLoop ["heartRate"] exPredictFail
      (fun _ => FileState.content exFileTwo) 3).queue = [] :=
  ⟨rfl, rfl, rfl⟩

/-- C3 amended: a failure while vectorizing or inferring one frame ends the
attempt at that frame — frames earlier in the file keep their enqueued
results, but the sibling frames after the failing one are not processed on
that attempt (and a retryable error class re-runs the whole file rather than
resuming at the failed frame). -/
theorem C3_isolation_amended (schema : List String) (predict : Predict)
    (xs ys : List PyJson) (e : PyJson) (exc : PyExc)
    (hxs : ∀ a ∈ xs, ∃ r, processEntry schema predict a = .ok r)
    (he : processEntry schema predict e = .error exc) :
    runEntries schema predict (xs ++ e :: ys) =
      (collectItems schema predict xs, some exc) :=
  runEntries_first_raise schema predict e exc he xs ys hxs

/-- Witness for C3's amended statement: the 80-frame before the failing
70-frame keeps its enqueued pair; everything after the failure is cut. -/
theorem C3_isolation_amended_witness :
    runEntries ["heartRate"] exPredictFail ([exEntryHr 80] ++ exEntryHr 70 :: []) =
      (collectItems ["heartRate"] exPredictFail [exEntryHr 80], some PyExc.otherError) :=
  C3_isolation_amended ["heartRate"] exPredictFail [exEntryHr 80] [] (exEntryHr 70)
    PyExc.otherError
    (by
      intro a ha
      rw [List.mem_singleton] at ha
      subst ha
      exact ⟨some ((5 : Rat), PyJson.num 0), rfl⟩)
    rfl

/-- C4 counterexample: an adapter that always raises `ValueError`, on a file
that parses successfully on every attempt (`parsed = true`), drives the loop
through 3 attempts — an inference error did cause further attempts of the
read-process loop, contradicting the claim that it never does, whatever the
exception class. -/
theorem C4_retry_cex :
    (attemptOnce ["heartRate"] exPredictVE (FileState.content exFileOne)).parsed = true ∧
    (attemptOnce ["heartRate"] exPredictVE (FileState.content exFileOne)).exc =
      some PyExc.valueError ∧
    (processLoop ["heartRate"] exPredictVE
      (fun _ => FileState.content exFileOne) 3).attempts = 3 :=
  ⟨rfl, rfl, rfl⟩

/-- C4 amended: whether a failure during frame processing (in particular an
exception from `model.predict`) causes another attempt is decided purely by
its exception class: `ValueError`/`JSONDecodeError` retry exactly like read
failures, while any other class ends processing after the current attempt. -/
theorem C4_retry_by_class_amended (schema : List String) (predict : Predict)
    (env : Nat → FileState) (retries : Nat) (j : PyJson) (es : List PyJson)
    (items : List QItem) (exc : PyExc)
    (hj : env 1 = FileState.content j)
    (hes : getDataEntries j = .ok es)
    (hrun : runEntries schema predict es = (items, some exc))
    (h2 : 2 ≤ retries) :
    (exc.retryable = true → 2 ≤ (processLoop schema predict env retries).attempts) ∧
    (exc.retryable = false → (processLoop schema predict env retries).attempts = 1) := by
  have hatt : (attemptOnce schema predict (env 1)).exc = some exc := by
    rw [hj]
    simp only [attemptOnce, hes, hrun]
  constructor
  · intro hret
    unfold processLoop
    have h := processLoopAux_runs schema predict env 1 1 retries ⟨[], 0, 0⟩
      (fun s hs1 hs2 => by
        have hs : s = 1 := by omega
        subst hs
        exact ⟨exc, hatt, hret⟩)
      (by omega)
    exact le_trans (Nat.le_add_left 2 _) h
  · intro hret
    unfold processLoop
    have h := processLoopAux_stops schema predict env 0 1 retries ⟨[], 0, 0⟩ exc
      (fun s hs1 hs2 => absurd hs2 (by omega))
      (by rw [Nat.add_zero]; exact hatt)
      hret (by omega)
    rw [h]

/-- Witness for C4's amended statement: the always-`ValueError` adapter on a
parsing file with budget 3 satisfies both branches (the non-retryable one
vacuously). -/
theorem C4_retry_by_class_amended_witness :
    (PyExc.valueError.retryable = true →
      2 ≤ (processLoop ["heartRate"] exPredictVE
        (fun _ => FileState.content exFileOne) 3).attempts) ∧
    (PyExc.valueError.retryable = false →
      (processLoop ["heartRate"] exPredictVE
        (fun _ => FileState.content exFileOne) 3).attempts = 1) :=
  C4_retry_by_class_amended ["heartRate"] exPredictVE
    (fun _ => FileState.content exFileOne) 3 exFileOne [exEntryHr 70] []
    PyExc.valueError rfl rfl rfl (by omega)

/-- C6: on any reachable attempt `t` that observes a zero-size file, the
emptiness check fires before parsing — no parse happens on that attempt
(`parsed = false`), the raised `ValueError` is of the retryable (transient)
class, and while the retry budget is not exhausted (`t < retries`) a further
attempt is started. -/
theorem C6_empty_checked_transient (schema : List String) (predict : Predict)
    (env : Nat → FileState) (retries t : Nat)
    (h1 : 1 ≤ t) (h2 : t < retries)
    (htr : ∀ s, 1 ≤ s → s < t → transientAt schema predict env s)
    (hempty : env t = FileState.empty) :
    (attemptOnce schema predict (env t)).parsed = false ∧
    (attemptOnce schema predict (env t)).exc = some PyExc.valueError ∧
    PyExc.valueError.retryable = true ∧
    t + 1 ≤ (processLoop schema predict env retries).attempts := by
  refine ⟨by rw [hempty]; rfl, by rw [hempty]; rfl, rfl, ?_⟩
  unfold processLoop
  have h := processLoopAux_runs schema predict env t 1 retries ⟨[], 0, 0⟩
    (fun s hs1 hs2 => by
      by_cases hst : s < t
      · exact htr s hs1 hst
      · have hs : s = t := by omega
        subst hs
        exact ⟨PyExc.valueError, by rw [hempty]; rfl, rfl⟩)
    (by omega)
  exact le_trans (Nat.le_add_left (t + 1) _) h

/-- Witness for C6: a file empty on attempt 1 with budget 3 parses nothing
on that attempt and a second attempt is started. -/
theorem C6_empty_checked_transient_witness :
    (attemptOnce [] exPredictConst FileState.empty).parsed = false ∧
    (attemptOnce [] exPredictConst FileState.empty).exc = some PyExc.valueError ∧
    PyExc.valueError.retryable = true ∧
    2 ≤ (processLoop [] exPredictConst (fun _ => FileState.empty) 3).attempts :=
  C6_empty_checked_transient [] exPredictConst (fun _ => FileState.empty) 3 1
    (by omega) (by omega) (fun s hs1 hs2 => absurd hs2 (by omega)) rfl

/-- C7 counterexample: an adapter raising `ValueError` on the two-frame file
is an error that is neither an empty file nor a parse/syntax failure — every
attempt parses (`parsed = true`) and the exception comes from frame
processing — yet the loop runs all 3 attempts instead of aborting on the
attempt where the error occurs: the handlers select on exception class, not
on the claim's semantic categories, so the claim fails at this input. -/
theorem C7_fatal_cex :
    (attemptOnce ["heartRate"] exPredictVE (FileState.content exFileTwo)).parsed = true ∧
    (attemptOnce ["heartRate"] exPredictVE (FileState.content exFileTwo)).exc =
      some PyExc.valueError ∧
    (processLoop ["heartRate"] exPredictVE
      (fun _ => FileState.content exFileTwo) 3).attempts = 3 :=
  ⟨rfl, rfl, rfl⟩

/-- C7 amended: immediate abort holds exactly for the errors whose class is
outside the retrying handler's `(JSONDecodeError, ValueError)`: on any
reachable attempt `t` raising an exception of such a class
(`OSError`/`PermissionError`, `AttributeError`/`TypeError` shape errors),
the loop makes exactly `t` attempts — it abandons the file on the spot —
while a non-empty-file, non-parse error of class `ValueError` or
`JSONDecodeError` (an adapter error, say) is retried instead.  The model's
loop is a total function into `RunResult`, so no exception ever propagates
to the caller. -/
theorem C7_fatal_aborts (schema : List String) (predict : Predict)
    (env : Nat → FileState) (retries t : Nat) (e : PyExc)
    (h1 : 1 ≤ t) (h2 : t ≤ retries)
    (htr : ∀ s, 1 ≤ s → s < t → transientAt schema predict env s)
    (hexc : (attemptOnce schema predict (env t)).exc = some e)
    (hret : e.retryable = false) :
    (processLoop schema predict env retries).attempts = t := by
  unfold processLoop
  have h := processLoopAux_stops schema predict env (t - 1) 1 retries ⟨[], 0, 0⟩ e
    (fun s hs1 hs2 => htr s hs1 (by omega))
    (by
      have hk : 1 + (t - 1) = t := by omega
      rw [hk]
      exact hexc)
    hret (by omega)
  rw [h]
  show 0 + (t - 1 + 1) = t
  omega

/-- Witness for C7: an I/O fault on the first attempt ends the run after
exactly one attempt. -/
theorem C7_fatal_aborts_witness :
    (processLoop [] exPredictConst (fun _ => FileState.ioError) 3).attempts = 1 :=
  C7_fatal_aborts [] exPredictConst (fun _ => FileState.ioError) 3 1 PyExc.otherError
    (by omega) (by omega) (fun s hs1 hs2 => absurd hs2 (by omega)) rfl rfl
